import Mathlib

/-!
A shallow embedding of the type-inference pass of the Elgin compiler front
end (`src/analysis.rs`), together with theorems settling the specification
claims about it.  The `Type` enum, the IR data structures and the two
symbol-lookup helpers live in repository modules (`types.rs`, `ir.rs`,
`errors.rs`) that are not part of the provided sources; those are modelled
from the specification (marked `Modelled from the spec:` below).  Everything
else is translated directly from `src/analysis.rs`.
-/

namespace Chi

/-- Modelled from the spec: the type algebra of `types.rs` (missing from the
sources).  Variants are those listed in spec section 3 and used by
`analysis.rs` and `parser.rs`: concrete signed/unsigned integers, floats,
`Bool`, pointers, fixed-size arrays, the `Unknown`/`Undefined` markers, the
literal placeholder types and inference variables.  The Rust name is `Type`,
which Lean reserves, hence `Ty`. -/
inductive Ty where
  | I8 | I16 | I32 | I64 | I128
  | N8 | N16 | N32 | N64 | N128
  | F32 | F64 | F128
  | Bool
  | Ptr (t : Ty)
  | Array (size : Nat) (t : Ty)
  | Unknown
  | Undefined
  | IntLiteral
  | FloatLiteral
  | StrLiteral
  | Variable (id : Nat)
deriving DecidableEq, Repr

/-- Translation of `type Constraints = Vec<(Type, Type)>` from `analysis.rs`. -/
abbrev Constraints := List (Ty × Ty)

/-- Modelled from the spec: the opcode union of `ir.rs` (missing from the
sources).  The constructors and their arities are exactly those matched in
`gen_constraints`; payloads that the analysis never inspects (literal
values, labels, operator flags) are carried abstractly. -/
inductive InstructionType where
  | Push (val : String)
  | Load (var : String)
  | Store (var : String)
  | StoreIndexed (var : String)
  | Allocate (var : String)
  | Index
  | Branch (l1 l2 : String)
  | Jump (l : String)
  | Label (l : String)
  | Call (procName : String)
  | Return
  | Negate (signed : Bool)
  | Add (signed : Bool)
  | Subtract (signed : Bool)
  | Multiply (signed : Bool)
  | IntDivide
  | Divide
  | Compare (op : String)
deriving DecidableEq, Repr

/-- Modelled from the spec: an instruction is an opcode together with its
result type slot (`ir.rs`, missing from the sources). -/
structure Instruction where
  ins : InstructionType
  typ : Ty
deriving DecidableEq, Repr

/-- Modelled from the spec: `Span<T>` from `errors.rs` (missing from the
sources): contents tagged with a source position and length. -/
structure Span (α : Type) where
  contents : α
  pos : Nat
  len : Nat
deriving DecidableEq, Repr

/-- The `spanned` helper from the source: wrap contents with position data. -/
def spanned (contents : Instruction) (pos len : Nat) : Span Instruction :=
  ⟨contents, pos, len⟩

/-- Modelled from the spec: an IR procedure (`ir.rs`, missing from the
sources): name, positionally aligned argument names and types, declared
return type, and a body of positioned instructions. -/
structure IRProc where
  name : String
  args : List String
  arg_types : List Ty
  ret_type : Ty
  body : List (Span Instruction)
deriving DecidableEq, Repr

/-- One scope: a map from variable name to type.  The Rust `HashMap` is
modelled as an association list where insertion conses a binding at the
front and lookup takes the first match, which realises the same
lookup-after-override semantics. -/
abbrev Scope := List (String × Ty)

/-- First-match association-list lookup (the `HashMap` read). -/
def scope_lookup : Scope → String → Option Ty
  | [], _ => none
  | (n, t) :: rest, v => if n = v then some t else scope_lookup rest v

/-- The mutable analysis state of `IRBuilder` that `analyze` touches: the
global procedure list and the stack of scopes. -/
structure IRBuilder where
  procs : List IRProc
  scopes : List Scope
deriving DecidableEq, Repr

/-- Modelled from the spec: `locate_var` (defined in `ir.rs`, missing from
the sources) searches the scope stack from the most recent scope backwards
and fails with `UnresolvedSymbol` (here: `none`) when the name is bound
nowhere.  The scope stack stores the most recent scope last, matching the
`Vec` push in `analyze`. -/
def locate_var : List Scope → String → Option Ty
  | [], _ => none
  | sc :: rest, v =>
    match locate_var rest v with
    | some t => some t
    | none => scope_lookup sc v

/-- Modelled from the spec: `locate_proc` (defined in `ir.rs`, missing from
the sources) looks the name up in the global procedure table and fails with
`UnknownProcedure` (here: `none`) when absent. -/
def locate_proc (procs : List IRProc) (name : String) : Option IRProc :=
  procs.find? (fun p => p.name = name)

/-- Insert a binding into the last (current) scope, as
`self.scopes[self.scopes.len() - 1].insert(var, typ)` does. -/
def insert_last : List Scope → String → Ty → List Scope
  | [], _, _ => []
  | [sc], n, t => [(n, t) :: sc]
  | sc :: rest, n, t => sc :: insert_last rest n t

/-- The error kinds of the pass (spec section 7).  In the Rust source,
`UnresolvedSymbol` and `UnknownProcedure` surface as `None` propagated by
`?` out of the lookup helpers, while `MalformedIR` is a panic (an `unwrap`
on an empty stack, an out-of-range index, or the explicit `panic!()` on a
non-array `Index` target). -/
inductive AnalysisError where
  | UnresolvedSymbol
  | UnknownProcedure
  | MalformedIR
deriving DecidableEq, Repr

/-- Translation of `add_constraint` from `analysis.rs`: discard satisfied and wildcard
pairs, orient the rest, and append to the constraint list. -/
def add_constraint (constraints : Constraints) (t1 t2 : Ty) : Constraints :=
  if t1 = t2 then
    constraints
  else if t1 = Ty.StrLiteral ∨ t2 = Ty.StrLiteral then
    constraints
  else if t1 = Ty.Undefined ∨ t2 = Ty.Undefined then
    constraints
  else
    match t2 with
    | Ty.Variable v => constraints ++ [(Ty.Variable v, t1)]
    | _ =>
      if t2 = Ty.IntLiteral ∨ t2 = Ty.FloatLiteral ∨ t2 = Ty.StrLiteral then
        constraints ++ [(t2, t1)]
      else
        constraints ++ [(t1, t2)]

/-- One iteration of the `for ins in &proc.body` loop of `gen_constraints`:
given the scope stack, the abstract value-type stack and the constraints
accumulated so far, process one instruction.  Stack pops translate the
source's `stack.pop().unwrap()` (underflow panics become
`MalformedIR`), and the slice arithmetic of the `Call` arm panics (becomes
`MalformedIR`) when the stack holds fewer entries than the callee's arity
or when the callee's `arg_types` is shorter than its `args`. -/
def gen_step (procs : List IRProc) (proc : IRProc) (scopes : List Scope)
    (stack : List Ty) (cs : Constraints) (ins : Span Instruction) :
    Except AnalysisError (List Scope × List Ty × Constraints) :=
  match ins.contents.ins with
  | .Push _ => .ok (scopes, ins.contents.typ :: stack, cs)
  | .Load var =>
    match locate_var scopes var with
    | none => .error .UnresolvedSymbol
    | some t => .ok (scopes, t :: stack, cs)
  | .Store var =>
    match stack with
    | [] => .error .MalformedIR
    | typ :: rest =>
      let cs1 := add_constraint cs ins.contents.typ typ
      match locate_var scopes var with
      | none => .error .UnresolvedSymbol
      | some vt => .ok (scopes, rest, add_constraint cs1 ins.contents.typ vt)
  | .StoreIndexed var =>
    match stack with
    | _idx :: value :: rest =>
      match locate_var scopes var with
      | none => .error .UnresolvedSymbol
      | some (Ty.Array _ t) => .ok (scopes, rest, add_constraint cs t value)
      | some _ => .ok (scopes, rest, cs)
    | _ => .error .MalformedIR
  | .Allocate var =>
    match stack with
    | [] => .error .MalformedIR
    | content :: rest =>
      match scopes with
      | [] => .error .MalformedIR
      | _ :: _ =>
        .ok (insert_last scopes var ins.contents.typ, rest,
             add_constraint cs ins.contents.typ content)
  | .Index =>
    match stack with
    | _idx :: obj :: rest =>
      match obj with
      | Ty.Array _ t => .ok (scopes, t :: rest, cs)
      | _ => .error .MalformedIR
    | _ => .error .MalformedIR
  | .Branch _ _ =>
    match stack with
    | [] => .error .MalformedIR
    | c :: rest => .ok (scopes, rest, add_constraint cs c Ty.Bool)
  | .Jump _ => .ok (scopes, stack, cs)
  | .Label _ => .ok (scopes, stack, cs)
  | .Call name =>
    match locate_proc procs name with
    | none => .error .UnknownProcedure
    | some callee =>
      let n := callee.args.length
      if n ≤ stack.length ∧ n ≤ callee.arg_types.length then
        let argsOnStack := (stack.take n).reverse
        let cs' := (argsOnStack.zip callee.arg_types).foldl
          (fun acc p => add_constraint acc p.1 p.2) cs
        .ok (scopes, callee.ret_type :: stack.drop n, cs')
      else .error .MalformedIR
  | .Return =>
    match stack with
    | [] => .error .MalformedIR
    | t :: rest => .ok (scopes, rest, add_constraint cs t proc.ret_type)
  | .Negate _ =>
    match stack with
    | [] => .error .MalformedIR
    | t1 :: rest => .ok (scopes, rest, add_constraint cs t1 ins.contents.typ)
  | .Add _ | .Subtract _ | .Multiply _ | .IntDivide | .Divide =>
    match stack with
    | t1 :: t2 :: rest =>
      let cs1 := add_constraint cs t1 t2
      let cs2 := add_constraint cs1 t1 ins.contents.typ
      let cs3 := add_constraint cs2 t2 ins.contents.typ
      .ok (scopes, ins.contents.typ :: rest, cs3)
    | _ => .error .MalformedIR
  | .Compare _ =>
    match stack with
    | t1 :: t2 :: rest =>
      let cs1 := add_constraint cs t1 t2
      let cs2 := add_constraint cs1 ins.contents.typ Ty.Bool
      .ok (scopes, Ty.Bool :: rest, cs2)
    | _ => .error .MalformedIR

/-- The instruction loop of `gen_constraints`, threading the scope stack,
the value-type stack and the accumulated constraints. -/
def gen_go (procs : List IRProc) (proc : IRProc) :
    List Scope → List Ty → Constraints → List (Span Instruction) →
    Except AnalysisError (Constraints × List Scope)
  | scopes, _, cs, [] => .ok (cs, scopes)
  | scopes, stack, cs, ins :: rest =>
    match gen_step procs proc scopes stack cs ins with
    | .error e => .error e
    | .ok (scopes', stack', cs') => gen_go procs proc scopes' stack' cs' rest

/-- Translation of `gen_constraints` from `analysis.rs`: walk the body once, starting from
an empty value-type stack and an empty constraint list.  The updated scope
stack is returned alongside the constraints because the Rust method mutates
`self.scopes` through `Allocate`. -/
def gen_constraints (procs : List IRProc) (scopes : List Scope)
    (proc : IRProc) : Except AnalysisError (Constraints × List Scope) :=
  gen_go procs proc scopes [] [] proc.body

/-- Translation of `substitute_proc_body` from `analysis.rs`: rewrite every instruction
type slot equal to `t1` into `t2`, keeping opcode, position and length. -/
def substitute_proc_body (body : List (Span Instruction)) (t1 t2 : Ty) :
    List (Span Instruction) :=
  body.map (fun ins =>
    spanned
      { ins := ins.contents.ins
        typ := if ins.contents.typ = t1 then t2 else ins.contents.typ }
      ins.pos ins.len)

/-- Translation of `substitute_constraints` from `analysis.rs`: rewrite every occurrence of
`t1` on either side of every constraint into `t2`. -/
def substitute_constraints (constraints : Constraints) (t1 t2 : Ty) :
    Constraints :=
  constraints.map (fun p =>
    ((if p.1 = t1 then t2 else p.1), (if p.2 = t1 then t2 else p.2)))

/-- One round of the solver: the inner `for (t1, t2) in constraints` loop,
which iterates over the original constraint list while threading the
rewritten body and the rewritten copy of the constraint list. -/
def solve_round (cs : Constraints)
    (st : List (Span Instruction) × Constraints) :
    List (Span Instruction) × Constraints :=
  cs.foldl
    (fun st p =>
      (substitute_proc_body st.1 p.1 p.2, substitute_constraints st.2 p.1 p.2))
    st

/-- Translation of `solve_constraints` from `analysis.rs`: three rounds (`for _ in 1..4`)
of applying every constraint of the original list as a substitution, then
reassemble the procedure with the rewritten body.  The Rust return type is
`Option<IRProc>` but no failing path exists, so the result is returned
directly. -/
def solve_constraints (proc : IRProc) (cs : Constraints) : IRProc :=
  let st := solve_round cs (solve_round cs (solve_round cs (proc.body, cs)))
  { name := proc.name
    args := proc.args
    arg_types := proc.arg_types
    ret_type := proc.ret_type
    body := st.1 }

/-- The flag-scanning loop of `add_literal_constaints` (name kept with the
source's spelling): fold over every instruction of every procedure,
recording whether an `IntLiteral` or a `FloatLiteral` type slot occurs. -/
def literal_flags (procs : List IRProc) : Bool × Bool :=
  procs.foldl
    (fun fl p =>
      p.body.foldl
        (fun (fl : Bool × Bool) ins =>
          if ins.contents.typ = Ty.IntLiteral then (true, fl.2)
          else if ins.contents.typ = Ty.FloatLiteral then (fl.1, true)
          else fl)
        fl)
    (false, false)

/-- Translation of `add_literal_constaints` from `analysis.rs`: append the defaulting
constraints for literal placeholder types still present anywhere in the
program. -/
def add_literal_constaints (constraints : Constraints)
    (procs : List IRProc) : Constraints :=
  let fl := literal_flags procs
  let cs1 := if fl.1 then constraints ++ [(Ty.IntLiteral, Ty.I32)] else constraints
  if fl.2 then cs1 ++ [(Ty.FloatLiteral, Ty.F64)] else cs1

/-- The per-procedure scope seeding of `analyze`: a fresh map filled with
`args[i] -> arg_types[i]` for every index of `arg_types`.  The Rust loop
indexes `args[i]` and panics when `args` is shorter than `arg_types`
(modelled as `none`). -/
def seed_scope (args : List String) (arg_types : List Ty) : Option Scope :=
  if arg_types.length ≤ args.length then
    some ((args.zip arg_types).foldl (fun sc p => p :: sc) ([] : Scope))
  else none

/-- The `while index < self.procs.len()` loop of `analyze`: for each
procedure push a seeded scope, generate constraints, append the program-wide
literal-defaulting constraints and solve, accumulating rewritten procedures.
On failure the loop stops and reports the error together with the scope
stack as mutated so far. -/
def analyze_go (orig : List IRProc) :
    List Scope → List IRProc → List IRProc →
    Except AnalysisError (List IRProc) × List Scope
  | scopes, acc, [] => (.ok acc, scopes)
  | scopes, acc, p :: rest =>
    match seed_scope p.args p.arg_types with
    | none => (.error .MalformedIR, scopes)
    | some sc =>
      match gen_constraints orig (scopes ++ [sc]) p with
      | .error e => (.error e, scopes ++ [sc])
      | .ok (cs, scopes') =>
        let cs' := add_literal_constaints cs orig
        analyze_go orig scopes' (acc ++ [solve_constraints p cs']) rest

/-- Translation of `analyze` from `analysis.rs`: clear the scopes, analyze every procedure
in declaration order, and replace the stored procedure list with the
rewritten procedures only when every procedure succeeded.  On failure the
stored procedures are left untouched (the assignment `self.procs =
new_procs` only happens after the loop). -/
def analyze (b : IRBuilder) : Except AnalysisError Unit × IRBuilder :=
  match analyze_go b.procs [] [] b.procs with
  | (.ok nps, scs) => (.ok (), { procs := nps, scopes := scs })
  | (.error e, scs) => (.error e, { procs := b.procs, scopes := scs })

/-! ### Specification-side definitions

Definitions in this block follow the words of the specification claims (not
the source); each claim theorem relates one of them to the source
translation above. -/

/-- Returns `true` exactly on `Variable` terms. -/
def is_variable : Ty → Bool
  | .Variable _ => true
  | _ => false

/-- Returns `true` exactly on `Array` terms. -/
def is_array : Ty → Bool
  | .Array _ _ => true
  | _ => false

/-- Returns `true` on inference variables and the numeric literal placeholders,
the term kinds whose appearance as the second component of a normalized
constraint makes re-normalization swap the pair. -/
def is_var_or_numeric_literal : Ty → Bool
  | .Variable _ => true
  | .IntLiteral => true
  | .FloatLiteral => true
  | _ => false

/-- Returns `true` on the literal placeholder types of the spec glossary. -/
def is_literal_placeholder : Ty → Bool
  | .IntLiteral => true
  | .FloatLiteral => true
  | .StrLiteral => true
  | _ => false

/-- Returns `true` on fully concrete type terms (spec section 3): the fixed-width
numeric types, `Bool`, and pointers/arrays of concrete types; `false` on
`Unknown`, `Undefined`, the literal placeholders and inference variables. -/
def is_concrete : Ty → Bool
  | .Ptr t => is_concrete t
  | .Array _ t => is_concrete t
  | .Unknown => false
  | .Undefined => false
  | .IntLiteral => false
  | .FloatLiteral => false
  | .StrLiteral => false
  | .Variable _ => false
  | _ => true

/-- The normalization rule of `add_constraint` exactly as claim C2 states
it: discard satisfied pairs and pairs with a `StrLiteral`/`Undefined` side;
orient toward a `Variable` or literal second component; append exactly one
pair otherwise, leaving the rest of the list unchanged. -/
def add_constraint_claim (cs : Constraints) (t1 t2 : Ty) : Constraints :=
  if t1 = t2 then cs
  else if t1 = Ty.StrLiteral ∨ t1 = Ty.Undefined
          ∨ t2 = Ty.StrLiteral ∨ t2 = Ty.Undefined then cs
  else if is_variable t2 then cs ++ [(t2, t1)]
  else if t2 = Ty.IntLiteral ∨ t2 = Ty.FloatLiteral ∨ t2 = Ty.StrLiteral then
    cs ++ [(t2, t1)]
  else cs ++ [(t1, t2)]

/-- Whole-program scan for a remaining `IntLiteral` type slot (spec
section 4.4). -/
def has_int_literal (procs : List IRProc) : Bool :=
  procs.any (fun p => p.body.any (fun ins => decide (ins.contents.typ = Ty.IntLiteral)))

/-- Whole-program scan for a remaining `FloatLiteral` type slot (spec
section 4.4). -/
def has_float_literal (procs : List IRProc) : Bool :=
  procs.any (fun p => p.body.any (fun ins => decide (ins.contents.typ = Ty.FloatLiteral)))

/-- The well-formedness checker expressing the spec's precondition on the
generator (claim C6): walking the body with the same abstract value-type
stack and scope discipline as `gen_constraints`, return `false` exactly
when a fatal (panicking) branch would be reached — a stack underflow, an
`Index` whose object is not an array, a `Call` whose callee arity exceeds
the stack depth or whose argument name/type sequences are misaligned, or an
`Allocate` with no scope to extend.  A failed symbol lookup merely ends the
walk (a non-fatal diagnostic), yielding `true`. -/
def fatal_free_go (procs : List IRProc) (proc : IRProc) :
    List Scope → List Ty → List (Span Instruction) → Bool
  | _, _, [] => true
  | scopes, stack, ins :: rest =>
    match ins.contents.ins with
    | .Push _ => fatal_free_go procs proc scopes (ins.contents.typ :: stack) rest
    | .Load var =>
      match locate_var scopes var with
      | none => true
      | some t => fatal_free_go procs proc scopes (t :: stack) rest
    | .Store var =>
      match stack with
      | [] => false
      | _ :: stack' =>
        match locate_var scopes var with
        | none => true
        | some _ => fatal_free_go procs proc scopes stack' rest
    | .StoreIndexed var =>
      match stack with
      | _ :: _ :: stack' =>
        match locate_var scopes var with
        | none => true
        | some _ => fatal_free_go procs proc scopes stack' rest
      | _ => false
    | .Allocate var =>
      match stack with
      | [] => false
      | _ :: stack' =>
        match scopes with
        | [] => false
        | _ :: _ =>
          fatal_free_go procs proc (insert_last scopes var ins.contents.typ) stack' rest
    | .Index =>
      match stack with
      | _ :: Ty.Array _ t :: stack' => fatal_free_go procs proc scopes (t :: stack') rest
      | _ => false
    | .Branch _ _ =>
      match stack with
      | [] => false
      | _ :: stack' => fatal_free_go procs proc scopes stack' rest
    | .Jump _ => fatal_free_go procs proc scopes stack rest
    | .Label _ => fatal_free_go procs proc scopes stack rest
    | .Call name =>
      match locate_proc procs name with
      | none => true
      | some callee =>
        if callee.args.length ≤ stack.length ∧
            callee.args.length ≤ callee.arg_types.length then
          fatal_free_go procs proc scopes
            (callee.ret_type :: stack.drop callee.args.length) rest
        else false
    | .Return =>
      match stack with
      | [] => false
      | _ :: stack' => fatal_free_go procs proc scopes stack' rest
    | .Negate _ =>
      match stack with
      | [] => false
      | _ :: stack' => fatal_free_go procs proc scopes stack' rest
    | .Add _ | .Subtract _ | .Multiply _ | .IntDivide | .Divide =>
      match stack with
      | _ :: _ :: stack' =>
        fatal_free_go procs proc scopes (ins.contents.typ :: stack') rest
      | _ => false
    | .Compare _ =>
      match stack with
      | _ :: _ :: stack' => fatal_free_go procs proc scopes (Ty.Bool :: stack') rest
      | _ => false

/-- Well-formedness of one procedure for claim C6: the generator's walk
from the empty stack hits no fatal branch. -/
def fatal_free (procs : List IRProc) (scopes : List Scope) (proc : IRProc) : Bool :=
  fatal_free_go procs proc scopes [] proc.body

/-- Returns `true` exactly on the result that models a generator panic. -/
def is_malformed {α : Type} : Except AnalysisError α → Bool
  | .error .MalformedIR => true
  | _ => false

/-- The substitution a constraint list performs on one type term when each
pair is applied left to right, as the solver does to every body slot. -/
def apply_substs (l : Constraints) (x : Ty) : Ty :=
  l.foldl (fun x p => if x = p.1 then p.2 else x) x

/-- The position, length and opcode of a positioned instruction — the data
claim C4 asserts the solver preserves. -/
def span_shape (s : Span Instruction) : Nat × Nat × InstructionType :=
  (s.pos, s.len, s.contents.ins)

/-! ### Concrete fixtures used by counterexamples and witnesses -/

/-- Modelled from the spec: the lowered IR of Scenario A,
`proc add(a: i32, b: i32): i32 { return a + b }`.  The lowering stage is
not among the sources; per spec sections 3 and 6 it attaches fresh
inference variables to instructions whose types are not yet fixed, so the
`add` instruction carries `Variable 0` (the loads carry their own unused
variables, and `Return` an `Undefined` slot the generator never reads). -/
def scenarioA_proc : IRProc :=
  { name := "add"
    args := ["a", "b"]
    arg_types := [Ty.I32, Ty.I32]
    ret_type := Ty.I32
    body :=
      [ spanned ⟨.Load "a", Ty.Variable 1⟩ 16 1
      , spanned ⟨.Load "b", Ty.Variable 2⟩ 20 1
      , spanned ⟨.Add true, Ty.Variable 0⟩ 16 5
      , spanned ⟨.Return, Ty.Undefined⟩ 9 12 ] }

/-- The scope `analyze` seeds for `scenarioA_proc`'s arguments. -/
def scenarioA_scope : Scope := [("b", Ty.I32), ("a", Ty.I32)]

/-- The constraints the generator actually emits for Scenario A. -/
def scenarioA_constraints : Constraints :=
  [(Ty.Variable 0, Ty.I32), (Ty.Variable 0, Ty.I32), (Ty.Variable 0, Ty.I32)]

/-- A stack-disciplined procedure with fully concrete argument and return
types and no literal placeholder in its body, whose slots nevertheless
disagree (an `I64` operand added into an `I32` slot): the generated
constraints rewrite its body, refuting claim C8 as stated. -/
def c8_proc : IRProc :=
  { name := "p"
    args := []
    arg_types := []
    ret_type := Ty.I32
    body :=
      [ spanned ⟨.Push "1", Ty.I32⟩ 0 1
      , spanned ⟨.Push "2", Ty.I64⟩ 2 1
      , spanned ⟨.Add true, Ty.I32⟩ 0 3
      , spanned ⟨.Return, Ty.Undefined⟩ 0 3 ] }

/-- A procedure whose whole body is a single integer-literal push: its slot
stays `IntLiteral` after generation, so literal defaulting fires. -/
def lit_proc : IRProc :=
  { name := "lit"
    args := []
    arg_types := []
    ret_type := Ty.Undefined
    body := [ spanned ⟨.Push "5", Ty.IntLiteral⟩ 0 1 ] }

/-- A procedure that only pushes a concretely-typed value: the generator
emits no constraints for it. -/
def push_proc : IRProc :=
  { name := "q"
    args := []
    arg_types := []
    ret_type := Ty.Undefined
    body := [ spanned ⟨.Push "1", Ty.I32⟩ 0 1 ] }

/-- A procedure calling a name absent from the procedure table. -/
def call_unknown_proc : IRProc :=
  { name := "main"
    args := []
    arg_types := []
    ret_type := Ty.Undefined
    body := [ spanned ⟨.Call "nope", Ty.Undefined⟩ 0 4 ] }

/-! ### Helper lemmas about the solver -/

/-- The body component of one solver round is a fold of body substitutions
over the round's constraint list, whatever the threaded constraint-list
component holds. -/
lemma solve_round_fst :
    ∀ (cs : Constraints) (st : List (Span Instruction) × Constraints),
      (solve_round cs st).1
        = cs.foldl (fun b p => substitute_proc_body b p.1 p.2) st.1
  | [], _ => rfl
  | p :: rest, st => by
    simp only [solve_round, List.foldl_cons]
    exact solve_round_fst rest _

/-- The solver rewrites the body by folding the original
constraint list three times, in order, over it. -/
lemma solve_body_eq (proc : IRProc) (cs : Constraints) :
    (solve_constraints proc cs).body
      = (cs ++ cs ++ cs).foldl
          (fun b p => substitute_proc_body b p.1 p.2) proc.body := by
  show (solve_round cs (solve_round cs (solve_round cs (proc.body, cs)))).1 = _
  rw [List.foldl_append, List.foldl_append,
      solve_round_fst, solve_round_fst, solve_round_fst]

/-- Pointwise description of one body substitution. -/
lemma substitute_proc_body_getElem (body : List (Span Instruction))
    (t1 t2 : Ty) (i : Nat) :
    (substitute_proc_body body t1 t2)[i]?
      = body[i]?.map (fun s =>
          spanned ⟨s.contents.ins,
            if s.contents.typ = t1 then t2 else s.contents.typ⟩ s.pos s.len) := by
  simp [substitute_proc_body]

/-- Folding body substitutions acts on every type slot as `apply_substs`
and leaves position, length and opcode unchanged. -/
lemma foldl_subst_getElem (l : Constraints) :
    ∀ (b : List (Span Instruction)) (i : Nat),
      (l.foldl (fun b p => substitute_proc_body b p.1 p.2) b)[i]?
        = b[i]?.map (fun s =>
            spanned ⟨s.contents.ins, apply_substs l s.contents.typ⟩ s.pos s.len) := by
  induction l with
  | nil =>
    intro b i
    cases h : b[i]? <;> simp [apply_substs, spanned, h]
  | cons p rest ih =>
    intro b i
    rw [List.foldl_cons, ih, substitute_proc_body_getElem]
    cases h : b[i]? with
    | none => rfl
    | some s => simp [apply_substs, spanned]

/-- Folding body substitutions preserves the shape (position, length,
opcode) of every instruction. -/
lemma foldl_subst_shape (l : Constraints) (b : List (Span Instruction)) (i : Nat) :
    ((l.foldl (fun b p => substitute_proc_body b p.1 p.2) b)[i]?).map span_shape
      = (b[i]?).map span_shape := by
  rw [foldl_subst_getElem]
  cases h : b[i]? <;> simp [span_shape, spanned]

/-- Substitution fixes any term that no pair's source equals. -/
lemma apply_substs_not_source :
    ∀ (l : Constraints) (x : Ty), (∀ p ∈ l, p.1 ≠ x) → apply_substs l x = x
  | [], _, _ => rfl
  | p :: rest, x, h => by
    have hp : p.1 ≠ x := h p (List.mem_cons_self p rest)
    simp only [apply_substs, List.foldl_cons]
    rw [if_neg (fun hx => hp hx.symm)]
    exact apply_substs_not_source rest x (fun q hq => h q (List.mem_cons_of_mem p hq))

/-- Substitution sends `lit` to `d` when `(lit, d)` occurs in the list,
every pair whose source is `lit` targets `d`, and no pair's source is `d`. -/
lemma apply_substs_reaches :
    ∀ (l : Constraints) (lit d : Ty), (lit, d) ∈ l →
      (∀ p ∈ l, p.1 = lit → p.2 = d) → (∀ p ∈ l, p.1 ≠ d) →
      apply_substs l lit = d
  | [], _, _, hmem, _, _ => absurd hmem (List.not_mem_nil _)
  | p :: rest, lit, d, hmem, hsrc, hnd => by
    by_cases hp : p.1 = lit
    · have hpd : p.2 = d := hsrc p (List.mem_cons_self p rest) hp
      simp only [apply_substs, List.foldl_cons]
      rw [if_pos hp.symm, hpd]
      exact apply_substs_not_source rest d
        (fun q hq => hnd q (List.mem_cons_of_mem p hq))
    · simp only [apply_substs, List.foldl_cons]
      rw [if_neg (fun hx => hp hx.symm)]
      have hmem' : (lit, d) ∈ rest := by
        cases hmem with
        | head => exact absurd rfl hp
        | tail _ h => exact h
      exact apply_substs_reaches rest lit d hmem'
        (fun q hq => hsrc q (List.mem_cons_of_mem p hq))
        (fun q hq => hnd q (List.mem_cons_of_mem p hq))

/-! ### Helper lemmas about literal defaulting -/

/-- The inner fold of `literal_flags` over one body just ors the
per-literal `any` scans onto the incoming flags. -/
lemma flags_body (body : List (Span Instruction)) :
    ∀ fl : Bool × Bool,
      body.foldl
        (fun (fl : Bool × Bool) ins =>
          if ins.contents.typ = Ty.IntLiteral then (true, fl.2)
          else if ins.contents.typ = Ty.FloatLiteral then (fl.1, true)
          else fl)
        fl
      = (fl.1 || body.any (fun ins => decide (ins.contents.typ = Ty.IntLiteral)),
         fl.2 || body.any (fun ins => decide (ins.contents.typ = Ty.FloatLiteral))) := by
  induction body with
  | nil => intro fl; simp
  | cons ins rest ih =>
    intro fl
    by_cases h1 : ins.contents.typ = Ty.IntLiteral
    · simp [h1, ih]
    · by_cases h2 : ins.contents.typ = Ty.FloatLiteral
      · simp [h1, h2, ih]
      · simp [h1, h2, ih]

/-- The outer fold of `literal_flags` ors the whole-program scans onto the
incoming flags. -/
lemma flags_procs (procs : List IRProc) :
    ∀ fl : Bool × Bool,
      procs.foldl
        (fun fl p =>
          p.body.foldl
            (fun (fl : Bool × Bool) ins =>
              if ins.contents.typ = Ty.IntLiteral then (true, fl.2)
              else if ins.contents.typ = Ty.FloatLiteral then (fl.1, true)
              else fl)
            fl)
        fl
      = (fl.1 || has_int_literal procs, fl.2 || has_float_literal procs) := by
  induction procs with
  | nil => intro fl; simp [has_int_literal, has_float_literal]
  | cons p rest ih =>
    intro fl
    rw [List.foldl_cons, flags_body, ih]
    simp [has_int_literal, has_float_literal, Bool.or_assoc]

/-- The flag scan computes exactly the two whole-program literal scans. -/
lemma literal_flags_eq (procs : List IRProc) :
    literal_flags procs = (has_int_literal procs, has_float_literal procs) := by
  simpa using flags_procs procs (false, false)

/-- Closed form of `add_literal_constaints`. -/
lemma add_literal_constaints_eq (cs : Constraints) (procs : List IRProc) :
    add_literal_constaints cs procs
      = cs ++ (if has_int_literal procs then [(Ty.IntLiteral, Ty.I32)] else [])
           ++ (if has_float_literal procs then [(Ty.FloatLiteral, Ty.F64)] else []) := by
  unfold add_literal_constaints
  rw [literal_flags_eq]
  cases h1 : has_int_literal procs <;> cases h2 : has_float_literal procs <;>
    simp [h1, h2]

/-! ### Helper lemmas about the generator -/

/-- When one generator step fails, the checker calls the whole walk fatal
exactly when that failure is a `MalformedIR` panic. -/
lemma gen_step_error_fatal (procs : List IRProc) (proc : IRProc)
    (scopes : List Scope) (stack : List Ty) (cs : Constraints)
    (ins : Span Instruction) (rest : List (Span Instruction))
    (e : AnalysisError)
    (h : gen_step procs proc scopes stack cs ins = .error e) :
    fatal_free_go procs proc scopes stack (ins :: rest)
      = !decide (e = AnalysisError.MalformedIR) := by
  cases hins : ins.contents.ins <;>
    simp only [gen_step, hins] at h <;>
    simp only [fatal_free_go, hins] <;>
    (repeat' split at h) <;>
    (first
      | cases h
      | (injection h with he; subst he)
      | skip) <;>
    (first
      | rfl
      | decide
      | (simp_all; done)
      | (simp_all; decide))

/-- When one generator step succeeds, the checker continues with exactly
the step's updated scope stack and value-type stack. -/
lemma gen_step_ok_fatal (procs : List IRProc) (proc : IRProc)
    (scopes : List Scope) (stack : List Ty) (cs : Constraints)
    (ins : Span Instruction) (rest : List (Span Instruction))
    (sc' : List Scope) (st' : List Ty) (cs' : Constraints)
    (h : gen_step procs proc scopes stack cs ins = .ok (sc', st', cs')) :
    fatal_free_go procs proc scopes stack (ins :: rest)
      = fatal_free_go procs proc sc' st' rest := by
  cases hins : ins.contents.ins <;>
    simp only [gen_step, hins] at h <;>
    simp only [fatal_free_go, hins] <;>
    (repeat' split at h) <;>
    first
      | (cases h; rfl)
      | (cases h; simp_all)
      | (simp_all; done)

/-- The generator walk panics (models `MalformedIR`) exactly when the
well-formedness checker reports a fatal step, whatever constraints have
been accumulated: the constraint list never influences control flow. -/
lemma gen_go_malformed (procs : List IRProc) (proc : IRProc) :
    ∀ (body : List (Span Instruction)) (scopes : List Scope) (stack : List Ty)
      (cs : Constraints),
      is_malformed (gen_go procs proc scopes stack cs body)
        = !fatal_free_go procs proc scopes stack body := by
  intro body
  induction body with
  | nil => intro scopes stack cs; rfl
  | cons ins rest ih =>
    intro scopes stack cs
    rw [gen_go]
    cases hstep : gen_step procs proc scopes stack cs ins with
    | error e =>
      rw [gen_step_error_fatal procs proc scopes stack cs ins rest e hstep]
      cases e <;> rfl
    | ok st =>
      obtain ⟨sc', st', cs'⟩ := st
      rw [gen_step_ok_fatal procs proc scopes stack cs ins rest sc' st' cs' hstep]
      exact ih sc' st' cs'

/-- A successful generator walk resolved every `Call` it visited. -/
lemma gen_go_ok_calls (procs : List IRProc) (proc : IRProc) :
    ∀ (body : List (Span Instruction)) (scopes : List Scope) (stack : List Ty)
      (cs : Constraints) (res : Constraints × List Scope),
      gen_go procs proc scopes stack cs body = .ok res →
      ∀ sp ∈ body, ∀ name, sp.contents.ins = .Call name →
        (locate_proc procs name).isSome := by
  intro body
  induction body with
  | nil => intro _ _ _ _ _ sp hsp; cases hsp
  | cons ins rest ih =>
    intro scopes stack cs res hok sp hsp name hcall
    rw [gen_go] at hok
    cases hstep : gen_step procs proc scopes stack cs ins with
    | error e => rw [hstep] at hok; cases hok
    | ok st =>
      rw [hstep] at hok
      cases hsp with
      | head =>
        simp only [gen_step, hcall] at hstep
        cases hloc : locate_proc procs name with
        | none => simp [hloc] at hstep
        | some callee => rfl
      | tail _ htail =>
        exact ih _ _ _ _ hok sp htail name hcall

/-- A successful `analyze` loop resolved every `Call` of every remaining
procedure against the original procedure table. -/
lemma analyze_go_ok_calls (orig : List IRProc) :
    ∀ (rest : List IRProc) (scopes : List Scope) (acc nps : List IRProc)
      (scs : List Scope),
      analyze_go orig scopes acc rest = (.ok nps, scs) →
      ∀ p ∈ rest, ∀ sp ∈ p.body, ∀ name, sp.contents.ins = .Call name →
        (locate_proc orig name).isSome := by
  intro rest
  induction rest with
  | nil => intro _ _ _ _ _ p hp; cases hp
  | cons q rest ih =>
    intro scopes acc nps scs hok p hp sp hsp name hcall
    rw [analyze_go] at hok
    cases hseed : seed_scope q.args q.arg_types with
    | none => simp [hseed] at hok
    | some sc =>
      simp only [hseed] at hok
      cases hgen : gen_constraints orig (scopes ++ [sc]) q with
      | error e => simp [hgen] at hok
      | ok r =>
        obtain ⟨cs, scopes'⟩ := r
        simp only [hgen] at hok
        cases hp with
        | head =>
          exact gen_go_ok_calls orig q q.body (scopes ++ [sc]) [] []
            (cs, scopes') hgen sp hsp name hcall
        | tail _ htail =>
          exact ih _ _ _ _ hok p htail sp hsp name hcall

/-! ### Helper lemmas about constraint normalization -/

/-- A pair actually appended by `add_constraint` never involves the
wildcard terms and never has equal components. -/
lemma add_constraint_nil_facts (t1 t2 s t : Ty)
    (h0 : add_constraint [] t1 t2 = [(s, t)]) :
    s ≠ t ∧ s ≠ Ty.StrLiteral ∧ s ≠ Ty.Undefined
      ∧ t ≠ Ty.StrLiteral ∧ t ≠ Ty.Undefined := by
  by_cases h1 : t1 = t2
  · simp [add_constraint, h1] at h0
  by_cases h2 : t1 = Ty.StrLiteral ∨ t2 = Ty.StrLiteral
  · simp only [add_constraint, if_neg h1, if_pos h2] at h0
    cases h0
  by_cases h3 : t1 = Ty.Undefined ∨ t2 = Ty.Undefined
  · simp only [add_constraint, if_neg h1, if_neg h2, if_pos h3] at h0
    cases h0
  simp only [add_constraint, if_neg h1, if_neg h2, if_neg h3] at h0
  push_neg at h2 h3
  obtain ⟨h2a, h2b⟩ := h2
  obtain ⟨h3a, h3b⟩ := h3
  have hcases : (s = t2 ∧ t = t1) ∨ (s = t1 ∧ t = t2) := by
    cases t2 <;> simp_all
  rcases hcases with ⟨hs, ht⟩ | ⟨hs, ht⟩
  · subst hs; subst ht
    exact ⟨Ne.symm h1, h2b, h3b, h2a, h3a⟩
  · subst hs; subst ht
    exact ⟨h1, h2a, h3a, h2b, h3b⟩

/-- Re-normalizing a pair that satisfies the appended-pair invariants
appends it unchanged when its second component is neither a variable nor a
numeric literal, and appends the swapped pair when it is. -/
lemma add_constraint_normalized (s t : Ty)
    (hst : s ≠ t) (hsS : s ≠ Ty.StrLiteral) (hsU : s ≠ Ty.Undefined)
    (htS : t ≠ Ty.StrLiteral) (htU : t ≠ Ty.Undefined) :
    (is_var_or_numeric_literal t = false →
       ∀ cs : Constraints, add_constraint cs s t = cs ++ [(s, t)])
  ∧ (is_var_or_numeric_literal t = true →
       ∀ cs : Constraints, add_constraint cs s t = cs ++ [(t, s)]) := by
  constructor
  · intro hv cs
    unfold add_constraint
    rw [if_neg hst, if_neg (fun hc => hc.elim hsS htS),
        if_neg (fun hc => hc.elim hsU htU)]
    cases t <;> simp_all [is_var_or_numeric_literal]
  · intro hv cs
    unfold add_constraint
    rw [if_neg hst, if_neg (fun hc => hc.elim hsS htS),
        if_neg (fun hc => hc.elim hsU htU)]
    cases t <;> simp_all [is_var_or_numeric_literal]

/-! ### Claim theorems -/

/-- C1: the constraint solver runs exactly 3 rounds, each iterating over
every constraint of the original, unmodified constraint list in insertion
order — so the output body is the fold of body substitutions over the
original list concatenated with itself three times — and each applied
constraint rewrites every body type slot equal to its source into its
target and every occurrence of its source on either side of the (copied)
constraint list into its target. -/
theorem c1_solver_three_rounds (proc : IRProc) (cs : Constraints) :
    ((solve_constraints proc cs).body
       = (cs ++ cs ++ cs).foldl
           (fun b p => substitute_proc_body b p.1 p.2) proc.body)
  ∧ (∀ (body : List (Span Instruction)) (t1 t2 : Ty),
       substitute_proc_body body t1 t2
         = body.map (fun s =>
             spanned ⟨s.contents.ins,
               if s.contents.typ = t1 then t2 else s.contents.typ⟩
               s.pos s.len))
  ∧ (∀ (l : Constraints) (t1 t2 : Ty),
       substitute_constraints l t1 t2
         = l.map (fun p =>
             ((if p.1 = t1 then t2 else p.1),
              (if p.2 = t1 then t2 else p.2)))) :=
  ⟨solve_body_eq proc cs, fun _ _ _ => rfl, fun _ _ _ => rfl⟩

/-- C2: `add_constraint` discards satisfied pairs and pairs with a
`StrLiteral`/`Undefined` side, orients toward a `Variable` or a literal
second component, and otherwise appends the pair as given — exactly one
pair is appended in the non-discard cases and the rest of the list is
unchanged, as captured by the claim-side normalization function. -/
theorem c2_add_constraint_normalization (cs : Constraints) (t1 t2 : Ty) :
    add_constraint cs t1 t2 = add_constraint_claim cs t1 t2 := by
  unfold add_constraint add_constraint_claim
  by_cases h1 : t1 = t2
  · simp [h1]
  · by_cases h2s : t1 = Ty.StrLiteral ∨ t2 = Ty.StrLiteral
    · rcases h2s with h | h <;> simp [h1, h]
    · by_cases h2u : t1 = Ty.Undefined ∨ t2 = Ty.Undefined
      · rcases h2u with h | h <;> simp [h1, h2s, h]
      · cases t2 <;> simp_all [is_variable]

/-- C3: `add_literal_constaints` appends `(IntLiteral, I32)` when any
instruction type slot anywhere in the program equals `IntLiteral` (and
`(FloatLiteral, F64)` for `FloatLiteral`); consequently, a body slot
holding such a literal placeholder, when the defaulting pair is in the
solved constraint list and no other constraint touches the placeholder or
its default, is rewritten to the concrete default by the solver. -/
theorem c3_literal_defaulting :
    (∀ (cs : Constraints) (procs : List IRProc),
        add_literal_constaints cs procs
          = cs ++ (if has_int_literal procs then [(Ty.IntLiteral, Ty.I32)] else [])
               ++ (if has_float_literal procs then [(Ty.FloatLiteral, Ty.F64)] else []))
  ∧ (∀ (proc : IRProc) (cs : Constraints) (lit dflt : Ty) (i : Nat)
        (sp : Span Instruction),
        proc.body[i]? = some sp → sp.contents.typ = lit →
        (lit, dflt) ∈ cs →
        (∀ p ∈ cs, p.1 = lit → p.2 = dflt) →
        (∀ p ∈ cs, p.1 ≠ dflt) →
        (((solve_constraints proc cs).body)[i]?).map (fun s => s.contents.typ)
          = some dflt) := by
  refine ⟨add_literal_constaints_eq, ?_⟩
  intro proc cs lit dflt i sp hsp htyp hmem hsrc hnd
  rw [solve_body_eq, foldl_subst_getElem, hsp]
  have hmem3 : (lit, dflt) ∈ cs ++ cs ++ cs :=
    List.mem_append_left _ (List.mem_append_left _ hmem)
  have hsrc3 : ∀ p ∈ cs ++ cs ++ cs, p.1 = lit → p.2 = dflt := by
    intro p hp
    rcases List.mem_append.mp hp with hp' | hp'
    · rcases List.mem_append.mp hp' with hp'' | hp''
      · exact hsrc p hp''
      · exact hsrc p hp''
    · exact hsrc p hp'
  have hnd3 : ∀ p ∈ cs ++ cs ++ cs, p.1 ≠ dflt := by
    intro p hp
    rcases List.mem_append.mp hp with hp' | hp'
    · rcases List.mem_append.mp hp' with hp'' | hp''
      · exact hnd p hp''
      · exact hnd p hp''
    · exact hnd p hp'
  have hreach := apply_substs_reaches (cs ++ cs ++ cs) lit dflt hmem3 hsrc3 hnd3
  rw [List.append_assoc] at hreach
  simp [spanned, htyp, hreach]

/-- C3 witness: a program whose only instruction pushes an `IntLiteral`
yields the defaulting constraint, and solving with it turns the slot into
`I32`. -/
theorem c3_witness :
    add_literal_constaints [] [lit_proc] = [(Ty.IntLiteral, Ty.I32)]
  ∧ lit_proc.body[0]? = some (spanned ⟨.Push "5", Ty.IntLiteral⟩ 0 1)
  ∧ (((solve_constraints lit_proc [(Ty.IntLiteral, Ty.I32)]).body)[0]?).map
        (fun s => s.contents.typ) = some Ty.I32 :=
  ⟨rfl, rfl,
   c3_literal_defaulting.2 lit_proc [(Ty.IntLiteral, Ty.I32)]
     Ty.IntLiteral Ty.I32 0 (spanned ⟨.Push "5", Ty.IntLiteral⟩ 0 1)
     rfl rfl (by decide) (by decide) (by decide)⟩

/-- C4: the rewritten procedure keeps the input's name, argument names,
argument types and declared return type, and every output instruction
keeps the position, length and opcode of the corresponding input
instruction — only the body's type slots may differ. -/
theorem c4_rewriter_frame (proc : IRProc) (cs : Constraints) :
    (solve_constraints proc cs).name = proc.name
  ∧ (solve_constraints proc cs).args = proc.args
  ∧ (solve_constraints proc cs).arg_types = proc.arg_types
  ∧ (solve_constraints proc cs).ret_type = proc.ret_type
  ∧ ∀ i : Nat,
      (((solve_constraints proc cs).body)[i]?).map span_shape
        = (proc.body[i]?).map span_shape := by
  refine ⟨rfl, rfl, rfl, rfl, fun i => ?_⟩
  rw [solve_body_eq]
  exact foldl_subst_shape _ _ _

/-- C5: when the pass fails, the stored procedure list is unchanged from
the input (no partial per-procedure output), and in particular a call to a
name absent from the procedure table makes the whole pass fail. -/
theorem c5_all_or_nothing :
    (∀ (b : IRBuilder) (e : AnalysisError),
        (analyze b).1 = .error e → (analyze b).2.procs = b.procs)
  ∧ (∀ (b : IRBuilder) (p : IRProc) (sp : Span Instruction) (name : String),
        p ∈ b.procs → sp ∈ p.body → sp.contents.ins = .Call name →
        locate_proc b.procs name = none →
        (analyze b).1 ≠ .ok () ∧ (analyze b).2.procs = b.procs) := by
  constructor
  · intro b e herr
    unfold analyze at herr ⊢
    cases hgo : analyze_go b.procs [] [] b.procs with
    | mk r scs =>
      cases r with
      | ok nps => simp [hgo] at herr
      | error eg => simp [hgo]
  · intro b p sp name hp hsp hcall hloc
    cases hgo : analyze_go b.procs [] [] b.procs with
    | mk r scs =>
      cases r with
      | ok nps =>
        exfalso
        have hsome := analyze_go_ok_calls b.procs b.procs [] [] nps scs hgo
          p hp sp hsp name hcall
        rw [hloc] at hsome
        cases hsome
      | error eg =>
        constructor
        · intro hok
          unfold analyze at hok
          simp [hgo] at hok
        · unfold analyze
          simp [hgo]

/-- C5 witness: a one-procedure program calling the undeclared `nope`
fails and leaves the stored program unchanged. -/
theorem c5_witness :
    locate_proc [call_unknown_proc] "nope" = none
  ∧ ((analyze ⟨[call_unknown_proc], []⟩).1 ≠ .ok ()
      ∧ (analyze ⟨[call_unknown_proc], []⟩).2.procs = [call_unknown_proc]) :=
  ⟨rfl,
   c5_all_or_nothing.2 ⟨[call_unknown_proc], []⟩ call_unknown_proc
     (spanned ⟨.Call "nope", Ty.Undefined⟩ 0 4) "nope"
     (by decide) (by decide) rfl rfl⟩

/-- C6: constraint generation reports the fatal `MalformedIR` condition
exactly when the well-formedness checker flags the walk (a stack
underflow, an `Index` on a non-array object, or a call whose arity
outruns the stack or whose argument lists are misaligned); on a
well-formed walk the fatal branches are unreachable and the generator
returns a constraint list unless a symbol lookup fails with one of the two
non-fatal diagnostics. -/
theorem c6_generator_fatal (procs : List IRProc) (scopes : List Scope)
    (proc : IRProc) :
    (is_malformed (gen_constraints procs scopes proc)
        = !fatal_free procs scopes proc)
  ∧ (fatal_free procs scopes proc = true →
        (∃ r, gen_constraints procs scopes proc = .ok r)
        ∨ gen_constraints procs scopes proc = .error .UnresolvedSymbol
        ∨ gen_constraints procs scopes proc = .error .UnknownProcedure) := by
  have hmain : is_malformed (gen_constraints procs scopes proc)
      = !fatal_free procs scopes proc :=
    gen_go_malformed procs proc proc.body scopes [] []
  refine ⟨hmain, ?_⟩
  intro hff
  cases hres : gen_constraints procs scopes proc with
  | ok r => exact .inl ⟨r, rfl⟩
  | error e =>
    cases e with
    | UnresolvedSymbol => exact .inr (.inl rfl)
    | UnknownProcedure => exact .inr (.inr rfl)
    | MalformedIR =>
      exfalso
      rw [hres, hff] at hmain
      exact absurd hmain (by decide)

/-- C6 witness: a well-formed one-push procedure passes the checker and
the generator succeeds on it. -/
theorem c6_witness :
    fatal_free [push_proc] [[]] push_proc = true
  ∧ ((∃ r, gen_constraints [push_proc] [[]] push_proc = .ok r)
      ∨ gen_constraints [push_proc] [[]] push_proc = .error .UnresolvedSymbol
      ∨ gen_constraints [push_proc] [[]] push_proc = .error .UnknownProcedure) :=
  ⟨rfl, (c6_generator_fatal [push_proc] [[]] push_proc).2 rfl⟩

/-- C7 counterexample: normalizing `(Variable 0, Variable 1)` appends
`(Variable 1, Variable 0)`, but re-normalizing that pair appends the
swapped `(Variable 0, Variable 1)` — not the same pair, refuting
idempotence as claimed. -/
theorem c7_counterexample :
    add_constraint [] (Ty.Variable 0) (Ty.Variable 1)
      = [(Ty.Variable 1, Ty.Variable 0)]
  ∧ add_constraint [] (Ty.Variable 1) (Ty.Variable 0)
      = [(Ty.Variable 0, Ty.Variable 1)]
  ∧ ((Ty.Variable 0, Ty.Variable 1) : Ty × Ty) ≠ (Ty.Variable 1, Ty.Variable 0) := by
  refine ⟨rfl, rfl, ?_⟩
  decide

/-- C7 amended: for every pair `(s, t)` that `add_constraint` appends,
re-applying `add_constraint` to `(s, t)` appends the same pair again
exactly when `t` is neither an inference variable nor a numeric literal
placeholder; when `t` is one of those, re-application appends the swapped
pair `(t, s)` instead. -/
theorem c7_idempotence_amended (t1 t2 s t : Ty)
    (h : ∀ cs : Constraints, add_constraint cs t1 t2 = cs ++ [(s, t)]) :
    (is_var_or_numeric_literal t = false →
       ∀ cs : Constraints, add_constraint cs s t = cs ++ [(s, t)])
  ∧ (is_var_or_numeric_literal t = true →
       ∀ cs : Constraints, add_constraint cs s t = cs ++ [(t, s)]) := by
  have h0 : add_constraint [] t1 t2 = [(s, t)] := by simpa using h []
  obtain ⟨hst, hsS, hsU, htS, htU⟩ := add_constraint_nil_facts t1 t2 s t h0
  exact add_constraint_normalized s t hst hsS hsU htS htU

/-- C7 witness: the appended pair `(I32, I64)` re-normalizes to itself. -/
theorem c7_witness :
    (∀ cs : Constraints, add_constraint cs Ty.I32 Ty.I64 = cs ++ [(Ty.I32, Ty.I64)])
  ∧ add_constraint [] Ty.I32 Ty.I64 = [] ++ [(Ty.I32, Ty.I64)] :=
  ⟨fun _ => rfl,
   (c7_idempotence_amended Ty.I32 Ty.I64 Ty.I32 Ty.I64 (fun _ => rfl)).1 rfl []⟩

/-- C8 counterexample: a stack-disciplined procedure with fully concrete
argument and return types and no literal placeholder in its body whose
slots disagree (`I64` pushed into an `I32` addition) generates non-trivial
constraints, and the solver rewrites its body — the solver is not the
identity on it, refuting the claim as stated. -/
theorem c8_counterexample :
    fatal_free [c8_proc] [[]] c8_proc = true
  ∧ c8_proc.arg_types.all is_concrete = true
  ∧ is_concrete c8_proc.ret_type = true
  ∧ c8_proc.body.all (fun s => !is_literal_placeholder s.contents.typ) = true
  ∧ gen_constraints [c8_proc] [[]] c8_proc
      = .ok ([(Ty.I64, Ty.I32), (Ty.I64, Ty.I32)], [[]])
  ∧ (analyze ⟨[c8_proc], []⟩).1 = .ok ()
  ∧ (analyze ⟨[c8_proc], []⟩).2.procs.map (fun p => p.body) ≠ [c8_proc.body] := by
  refine ⟨rfl, rfl, rfl, rfl, rfl, rfl, ?_⟩
  decide

/-- C8 amended: for every procedure whose body contains no literal
placeholder types and for which constraint generation emits the empty
constraint list, the solver (run on the literal-defaulting constraints, as
`analyze` does) is the identity on the body. -/
theorem c8_solver_noop_amended (procs : List IRProc) (proc : IRProc)
    (scopes scopes' : List Scope)
    (hgen : gen_constraints procs scopes proc = .ok ([], scopes'))
    (hnl : proc.body.all (fun s => !is_literal_placeholder s.contents.typ) = true) :
    (solve_constraints proc (add_literal_constaints [] procs)).body = proc.body := by
  have hsrc : ∀ p ∈ add_literal_constaints [] procs,
      p.1 = Ty.IntLiteral ∨ p.1 = Ty.FloatLiteral := by
    intro p hp
    rw [add_literal_constaints_eq] at hp
    simp only [List.nil_append] at hp
    rcases List.mem_append.mp hp with hp' | hp'
    · split_ifs at hp' with h
      · simp only [List.mem_singleton] at hp'
        subst hp'
        exact .inl rfl
      · cases hp'
    · split_ifs at hp' with h
      · simp only [List.mem_singleton] at hp'
        subst hp'
        exact .inr rfl
      · cases hp'
  apply List.ext_getElem?
  intro i
  rw [solve_body_eq, foldl_subst_getElem]
  cases hsp : proc.body[i]? with
  | none => rfl
  | some s =>
    have hmem : s ∈ proc.body := List.getElem?_mem hsp
    have hlit : is_literal_placeholder s.contents.typ = false := by
      have hall := List.all_eq_true.mp hnl s hmem
      simpa using hall
    have hfix : apply_substs
        (add_literal_constaints [] procs ++ add_literal_constaints [] procs
          ++ add_literal_constaints [] procs) s.contents.typ
        = s.contents.typ := by
      apply apply_substs_not_source
      intro p hp hpeq
      have hp2 : p.1 = Ty.IntLiteral ∨ p.1 = Ty.FloatLiteral := by
        rcases List.mem_append.mp hp with hp' | hp'
        · rcases List.mem_append.mp hp' with hp'' | hp''
          · exact hsrc p hp''
          · exact hsrc p hp''
        · exact hsrc p hp'
      rcases hp2 with h | h <;> rw [h] at hpeq <;> rw [← hpeq] at hlit <;>
        simp [is_literal_placeholder] at hlit
    simp only [Option.map_some']
    rw [hfix]
    rfl

/-- C8 witness: a procedure pushing one concretely-typed value generates
no constraints, and the solver leaves its body unchanged even though a
sibling procedure triggers integer-literal defaulting. -/
theorem c8_witness :
    gen_constraints [push_proc, lit_proc] [[]] push_proc = .ok ([], [[]])
  ∧ push_proc.body.all (fun s => !is_literal_placeholder s.contents.typ) = true
  ∧ (solve_constraints push_proc
        (add_literal_constaints [] [push_proc, lit_proc])).body = push_proc.body :=
  ⟨rfl, rfl,
   c8_solver_noop_amended [push_proc, lit_proc] push_proc [[]] [[]] rfl rfl⟩

/-- C9 counterexample: in Scenario A both arguments resolve to `I32`, so
the claimed pair `(type_of(a), type_of(b)) = (I32, I32)` is discarded (it
never appears in the output), the three constraints actually emitted are
all `(Variable 0, I32)` — and the third of them comes from the `Return`
instruction, whose raw pair `(Variable 0, I32)` is appended rather than
discarded as `(I32, I32)`: the first three instructions alone yield only
two constraints. -/
theorem c9_counterexample :
    locate_var [scenarioA_scope] "a" = some Ty.I32
  ∧ locate_var [scenarioA_scope] "b" = some Ty.I32
  ∧ gen_constraints [scenarioA_proc] [scenarioA_scope] scenarioA_proc
      = .ok (scenarioA_constraints, [scenarioA_scope])
  ∧ (Ty.I32, Ty.I32) ∉ scenarioA_constraints
  ∧ gen_go [scenarioA_proc] scenarioA_proc [scenarioA_scope] [] []
        (scenarioA_proc.body.take 3)
      = .ok ([(Ty.Variable 0, Ty.I32), (Ty.Variable 0, Ty.I32)], [scenarioA_scope])
  ∧ scenarioA_constraints.length = 3 := by
  refine ⟨rfl, rfl, rfl, ?_, rfl, rfl⟩
  decide

/-- C9 amended: for the modelled Scenario A IR, the add's raw operand pair
`(I32, I32)` is discarded as equal; the two slot pairs and the return's
pair each normalize to `(Variable 0, I32)`; and the solved body gives the
add instruction the type slot `I32`. -/
theorem c9_scenario_a_amended :
    gen_constraints [scenarioA_proc] [scenarioA_scope] scenarioA_proc
      = .ok (scenarioA_constraints, [scenarioA_scope])
  ∧ (analyze ⟨[scenarioA_proc], []⟩).1 = .ok ()
  ∧ (analyze ⟨[scenarioA_proc], []⟩).2.procs.map
        (fun p => p.body.map (fun s => s.contents.typ))
      = [[Ty.Variable 1, Ty.Variable 2, Ty.I32, Ty.Undefined]] :=
  ⟨rfl, rfl, rfl⟩

/-- C10: a store-indexed instruction whose target variable's type is not
an array is not an error — the generator pops the index and value types,
emits no constraint, leaves the scopes unchanged and continues — in
contrast to `Index`, which is fatal on a non-array object. -/
theorem c10_store_indexed_nonarray (procs : List IRProc) (proc : IRProc)
    (scopes : List Scope) (cs : Constraints) (idx value objT : Ty)
    (rest : List Ty) (var : String) (slot1 slot2 : Ty) (p1 l1 p2 l2 : Nat)
    (hvar : locate_var scopes var = some objT)
    (hna : is_array objT = false) :
    gen_step procs proc scopes (idx :: value :: rest) cs
        (spanned ⟨.StoreIndexed var, slot1⟩ p1 l1)
      = .ok (scopes, rest, cs)
  ∧ gen_step procs proc scopes (idx :: objT :: rest) cs
        (spanned ⟨.Index, slot2⟩ p2 l2)
      = .error .MalformedIR := by
  constructor
  · cases objT <;> simp_all [gen_step, spanned, is_array]
  · cases objT <;> simp_all [gen_step, spanned, is_array]

/-- C10 witness: storing indexed into an `I32`-typed variable succeeds
without constraints. -/
theorem c10_witness :
    locate_var [[("x", Ty.I32)]] "x" = some Ty.I32
  ∧ is_array Ty.I32 = false
  ∧ gen_step [] push_proc [[("x", Ty.I32)]] [Ty.I32, Ty.I32] []
        (spanned ⟨.StoreIndexed "x", Ty.Undefined⟩ 0 1)
      = .ok ([[("x", Ty.I32)]], [], []) :=
  ⟨rfl, rfl,
   (c10_store_indexed_nonarray [] push_proc [[("x", Ty.I32)]] [] Ty.I32 Ty.I32
     Ty.I32 [] "x" Ty.Undefined Ty.Undefined 0 1 0 1 rfl rfl).1⟩

end Chi
